import Mathlib

/-
Verification of the rds-try command core (package `command`, file
`command/command.go`): the tag-based ownership check and discovery,
latest-snapshot selection, the status-waiter polling loop, the SQL
execution batch, the CSV exporter and the bulk delete operation, as a
shallow embedding in Lean.  Remote calls (the AWS gateway, the SQL
driver, the file system) are modelled as explicit oracles passed to the
embedded functions; the functions consume them exactly the way the Go
code consumes the corresponding call results.
-/

set_option autoImplicit false

namespace RdsTry

/-- Go error values used by the command package (`errors.New` values plus
opaque provider errors). -/
inductive GoErr where
  | provider (msg : String)
  | dbInstanceNotFound
  | snapshotNotFound
  | driverNotFound
  | rdsTypesNotFound
  | rdsARNsNotFound
deriving DecidableEq

/-- An RDS tag: key/value pair (`rds.Tag`). -/
structure Tag where
  key : String
  value : String
deriving DecidableEq

/-- A DB snapshot, with the fields the core reads. -/
structure DBSnapshot where
  identifier : String
  status : String
deriving DecidableEq

/-- A DB instance, with the fields the core reads. -/
structure DBInstance where
  identifier : String
  status : String
deriving DecidableEq

/-- Go `strings.HasPrefix(s, pre)` on the underlying character lists. -/
def goHasPrefix (s pre : String) : Bool :=
  pre.data.isPrefixOf s.data

/-- Helper for Go `strings.Contains`: does `sub` occur as a contiguous
run inside `s`? -/
def goContainsAux (sub : List Char) : List Char → Bool
  | [] => sub.isEmpty
  | c :: cs => sub.isPrefixOf (c :: cs) || goContainsAux sub cs

/-- Go `strings.Contains(s, sub)`. -/
def goContains (s sub : String) : Bool :=
  goContainsAux sub.data s.data

/-- Tag key constant `rt_name_text` from command.go. -/
def rt_name_text : String := "rt_name"

/-- Tag key constant `rt_time_text` from command.go. -/
def rt_time_text : String := "rt_time"

/-- The tag-counting loop of `checkListTagsForResourceMessage`: a
`switch` on the tag key, incrementing `tag_cnt` once per tag whose key is
`rt_name` with a value carrying the application-name prefix, and once per
tag whose key is `rt_time`. -/
def tagMatchCount (appName : String) (tags : List Tag) : Nat :=
  tags.foldl
    (fun cnt tag =>
      if tag.key = rt_name_text then
        if goHasPrefix tag.value appName then cnt + 1 else cnt
      else if tag.key = rt_time_text then cnt + 1
      else cnt)
    0

/-- The pure part of `checkListTagsForResourceMessage` once the tag list
has been fetched: an empty list short-circuits to `false`, otherwise the
result is `tag_cnt >= 2`. -/
def checkTagList (appName : String) (tags : List Tag) : Bool :=
  if tags.length = 0 then false
  else if 2 ≤ tagMatchCount appName tags then true
  else false

/-- Embedding of `checkListTagsForResourceMessage`: the `ListTagsForResource` gateway
call is an oracle; a gateway error is propagated (Go returns
`(false, err)`), otherwise the tag list is scanned. -/
def checkListTagsForResourceMessage (appName : String)
    (fetch : Except GoErr (List Tag)) : Except GoErr Bool :=
  match fetch with
  | .error e => .error e
  | .ok tags => .ok (checkTagList appName tags)

/-- Whether a single tag contributes to `tag_cnt`: either its key is
`rt_name` and its value has the application-name prefix, or its key is
`rt_time`. -/
def ownTagMatch (appName : String) (tag : Tag) : Bool :=
  (tag.key = rt_name_text && goHasPrefix tag.value appName) ||
    tag.key = rt_time_text

/-- ASCII lower-casing; `strings.ToLower` as the core applies it to AWS
engine names, which are ASCII. -/
def goToLower (s : String) : String := ⟨s.data.map Char.toLower⟩

/-- The filtering loop shared by `DescribeDBInstancesByTags` and
`DescribeDBSnapshotsByTags`: check each resource in order with
`checkListTagsForResourceMessage` (here the oracle `check`), return the
first error immediately (Go: `return nil, err`), otherwise keep the
resource exactly when its state is true. -/
def filterByOwnership {α : Type} (check : α → Except GoErr Bool) :
    List α → Except GoErr (List α)
  | [] => .ok []
  | x :: xs =>
    match check x with
    | .error e => .error e
    | .ok st =>
      match filterByOwnership check xs with
      | .error e => .error e
      | .ok rest => .ok (if st then x :: rest else rest)

/-- Embedding of `DescribeDBInstancesByTags` / `DescribeDBSnapshotsByTags`: the
initial describe call is an oracle whose error is propagated, then the
response list is filtered by ownership. -/
def describeByTags {α : Type} (resp : Except GoErr (List α))
    (check : α → Except GoErr Bool) : Except GoErr (List α) :=
  match resp with
  | .error e => .error e
  | .ok l => filterByOwnership check l

/-- Embedding of `DescribeLatestDBSnapshot`: propagate a describe error, keep only
snapshots whose status is "available", fail with `ErrSnapshotNotFound`
when none remain, otherwise return the last element of the filtered,
provider-ordered list (`dbSnapshots[db_len-1]`). -/
def DescribeLatestDBSnapshot (resp : Except GoErr (List DBSnapshot)) :
    Except GoErr DBSnapshot :=
  match resp with
  | .error e => .error e
  | .ok snaps =>
    let avail := snaps.filter (fun s => s.status == "available")
    if h : avail.length < 1 then .error .snapshotNotFound
    else .ok (avail.get ⟨avail.length - 1, by omega⟩)

/-- Embedding of `getDbOpenValues`: lower-case the engine name, then a `switch` with
`strings.Contains` cases in source order (mysql, oracle, sqlserver,
postgres); only the mysql arm builds a data source name
`user:pass@tcp(addr:port)/`; the default arm leaves both strings
empty. -/
def getDbOpenValues (user pw engine addr : String) (port : Nat) :
    String × String :=
  let eng := goToLower engine
  if goContains eng "mysql" then
    ("mysql", user ++ ":" ++ pw ++ "@tcp(" ++ addr ++ ":" ++ toString port ++ ")/")
  else if goContains eng "oracle" then ("oracle", "")
  else if goContains eng "sqlserver" then ("sqlserver", "")
  else if goContains eng "postgres" then ("postgres", "")
  else ("", "")

/-- A query from the query file: display name and SQL text. -/
structure Query where
  name : String
  sql : String
deriving DecidableEq

/-- Observable outcome of `ExecuteSQL`: the returned duration list and
error, plus instrumentation recording whether `sql.Open` was reached and
which queries were handed to `db.Query`, in order. -/
structure ExecOutcome where
  times : List Nat
  err : Option GoErr
  openAttempted : Bool
  ran : List Query
deriving DecidableEq

/-- The query loop of `ExecuteSQL`: run each query in order; a failing
query makes the loop return the durations collected so far together with
its error; a successful query appends its elapsed duration and the loop
continues. -/
def execLoop (run : Query → Except GoErr Nat) :
    List Query → List Nat × Option GoErr × List Query
  | [] => ([], none, [])
  | q :: qs =>
    match run q with
    | .error e => ([], some e, [q])
    | .ok d =>
      let r := execLoop run qs
      (d :: r.1, r.2.1, q :: r.2.2)

/-- Embedding of `ExecuteSQL`: derive driver and data source name from the engine; an
empty driver aborts with `ErrDriverNotFound` before `sql.Open`; an
`sql.Open` error is returned with no queries run; otherwise the query
loop runs.  `openRes` and `run` are the oracles for `sql.Open` and
`db.Query`; a run result is the elapsed duration of a successful
query. -/
def ExecuteSQL (user pw engine addr : String) (port : Nat)
    (openRes : Option GoErr) (run : Query → Except GoErr Nat)
    (queries : List Query) : ExecOutcome :=
  let dv := getDbOpenValues user pw engine addr port
  if dv.1 = "" then ⟨[], some .driverNotFound, false, []⟩
  else
    match openRes with
    | some e => ⟨[], some e, true, []⟩
    | none =>
      let r := execLoop run queries
      ⟨r.1, r.2.1, true, r.2.2⟩

/-- Render one scanned column value the way `writeCSVFile` does: a nil
raw byte slice becomes the literal text `null`, any other value becomes
its string form. -/
def renderValue : Option String → String
  | none => "null"
  | some s => s

/-- Render one data row of the CSV output. -/
def renderRow (raw : List (Option String)) : List String :=
  raw.map renderValue

/-- The BOM character U+FEFF prepended in BOM mode. -/
def bomString : String := ⟨[Char.ofNat 0xFEFF]⟩

/-- Arguments of `writeCSVFile` (`writeCSVFileArgs`), with the row
cursor modelled as the list of rows, each a list of possibly-nil scanned
values. -/
structure WriteCSVFileArgs where
  rows : List (List (Option String))
  fileName : String
  path : String
  bom : Bool

/-- Embedding of `writeCSVFile`: here `colsRes` models `args.Rows.Columns()`, whose error
is the only one the function checks; `openErr` and `truncErr` model the
`os.OpenFile` and `file.Truncate` errors, which the Go code assigns to
`err` but never inspects (and `csv.Writer` write errors are not read at
all).  The result is the returned flag together with the records handed
to the CSV writer in order: the BOM comment line when enabled, then the
header, then the rendered data rows. -/
def writeCSVFile (colsRes : Except GoErr (List String))
    (_openErr _truncErr : Option GoErr) (args : WriteCSVFileArgs) :
    Bool × List (List String) :=
  match colsRes with
  | .error _ => (false, [])
  | .ok cols =>
    (true,
      (if args.bom then
        [[bomString ++ "# character encoding : utf-8 with BOM"]]
       else [])
        ++ [cols] ++ args.rows.map renderRow)

/-- One line of the produced CSV artifact. -/
def csvLine (record : List String) : String :=
  String.intercalate "," record

/-- Embedding of `getSpecifyTags`: the tag pair attached at creation time; `appName`
stands for `utils.GetFormatedAppName()` and `timeStr` for
`utils.GetFormatedTime()`. -/
def getSpecifyTags (appName timeStr : String) : List Tag :=
  [⟨rt_name_text, appName⟩, ⟨rt_time_text, timeStr⟩]

/-- The restore message built by `RestoreDBInstanceFromDBSnapshot`. -/
structure RestoreMessage where
  dbInstanceClass : String
  dbInstanceIdentifier : String
  multiAZ : Bool
  dbSnapshotIdentifier : String
  dbSubnetGroupName : String
  storageType : String
  tags : List Tag
deriving DecidableEq

/-- Arguments `RestoreDBInstanceFromDBSnapshotArgs`, flattened to the fields the
message reads. -/
structure RestoreArgs where
  dbInstanceClass : String
  dbIdentifier : String
  multiAZ : Bool
  snapshotIdentifier : String
  subnetGroupName : String
  storageType : String
deriving DecidableEq

/-- Embedding of the `RestoreDBInstanceFromDBSnapshot` message construction: every field
is copied from the arguments and the tags are always
`getSpecifyTags`. -/
def restoreDBInstanceMessage (appName timeStr : String)
    (args : RestoreArgs) : RestoreMessage :=
  ⟨args.dbInstanceClass, args.dbIdentifier, args.multiAZ,
   args.snapshotIdentifier, args.subnetGroupName, args.storageType,
   getSpecifyTags appName timeStr⟩

/-- The create-snapshot message built by `CreateDBSnapshot`. -/
structure CreateSnapshotMessage where
  dbInstanceIdentifier : String
  dbSnapshotIdentifier : String
  tags : List Tag
deriving DecidableEq

/-- Embedding of the `CreateDBSnapshot` message construction: `displayName` stands for
`utils.GetFormatedDBDisplayName(dbIdentifier)`; the tags are always
`getSpecifyTags`. -/
def createDBSnapshotMessage (appName timeStr dbIdentifier displayName : String) :
    CreateSnapshotMessage :=
  ⟨dbIdentifier, displayName, getSpecifyTags appName timeStr⟩

/-- The argument of `DeleteDBResources`: a `[]rds.DBSnapshot`, a
`[]rds.DBInstance`, or any other value (the `default` arm of the type
switch). -/
inductive RdsTypes where
  | snapshots (l : List DBSnapshot)
  | instances (l : List DBInstance)
  | other

/-- The per-kind deletion loop of `DeleteDBResources`: delete each
identifier in order, returning the first deletion error immediately; the
second component records the identifiers whose deletion was
attempted. -/
def deleteAll (del : String → Option GoErr) :
    List String → Option GoErr × List String
  | [] => (none, [])
  | x :: xs =>
    match del x with
    | some e => (some e, [x])
    | none =>
      let r := deleteAll del xs
      (r.1, x :: r.2)

/-- Embedding of `DeleteDBResources`: snapshots and instances are deleted one by one
(`delSnap` / `delInst` are the gateway delete oracles); any other value
only logs `ErrRdsTypesNotFound` and falls through to `return nil`. -/
def DeleteDBResources (delSnap delInst : String → Option GoErr) :
    RdsTypes → Option GoErr × List String
  | .snapshots l => deleteAll delSnap (l.map DBSnapshot.identifier)
  | .instances l => deleteAll delInst (l.map DBInstance.identifier)
  | .other => (none, [])

/-- The observable behaviour of one `WaitForStatusAvailable` poller: the
booleans whose send on the unbuffered channel completed, in order; the
number of describe calls issued; and whether the goroutine panicked (in
the error branch the code sends `false` and stops the ticker but then
dereferences the nil describe result). -/
structure WaiterRun where
  delivered : List Bool
  describeCalls : Nat
  panicked : Bool
deriving DecidableEq

/-- The select loop of `WaitForStatusAvailable` at tick granularity:
`describe` gives the result of the describe call issued at the n-th
30-second tick; `b` is the number of ticks the 30-minute timeout still
allows.  With the budget exhausted the timeout case sends `false` and
stops the ticker; a tick whose describe errors sends `false`, stops the
ticker and then panics on the nil dereference; a tick whose status is
"available" sends `true` and stops the ticker; any other status polls
again.  Once the ticker is stopped no further describe call is issued,
and a later timeout send on the unbuffered channel never completes
because the caller receives only once. -/
def waitLoop (describe : Nat → Except GoErr String) :
    Nat → Nat → WaiterRun
  | _, 0 => ⟨[false], 0, false⟩
  | tick, b + 1 =>
    match describe tick with
    | .error _ => ⟨[false], 1, true⟩
    | .ok st =>
      if st = "available" then ⟨[true], 1, false⟩
      else
        let r := waitLoop describe (tick + 1) b
        ⟨r.delivered, r.describeCalls + 1, r.panicked⟩

/-- Thirty minutes of 30-second ticks. -/
def timeoutTicks : Nat := 60

/-- Embedding of `WaitForStatusAvailable`: the poller starts at tick 1 with the full
tick budget. -/
def WaitForStatusAvailable (describe : Nat → Except GoErr String)
    (maxTicks : Nat) : WaiterRun :=
  waitLoop describe 1 maxTicks

/-! ## Helper lemmas -/

deriving instance DecidableEq for Except

theorem tagMatchCount_foldl_aux (appName : String) :
    ∀ (tags : List Tag) (n : Nat),
      tags.foldl
        (fun cnt tag =>
          if tag.key = rt_name_text then
            if goHasPrefix tag.value appName then cnt + 1 else cnt
          else if tag.key = rt_time_text then cnt + 1
          else cnt)
        n = n + tags.countP (ownTagMatch appName) := by
  have hne : rt_name_text ≠ rt_time_text := by decide
  have hne2 : rt_time_text ≠ rt_name_text := by decide
  intro tags
  induction tags with
  | nil => intro n; simp
  | cons t ts ih =>
    intro n
    simp only [List.foldl_cons, List.countP_cons, ih]
    by_cases h1 : t.key = rt_name_text
    · by_cases h2 : goHasPrefix t.value appName
      · simp [ownTagMatch, h1, h2, hne]
        omega
      · simp [ownTagMatch, h1, h2, hne]
    · by_cases h3 : t.key = rt_time_text
      · simp [ownTagMatch, h1, h3, hne2]
        omega
      · simp [ownTagMatch, h1, h3]

theorem tagMatchCount_eq_countP (appName : String) (tags : List Tag) :
    tagMatchCount appName tags = tags.countP (ownTagMatch appName) := by
  simpa [tagMatchCount] using tagMatchCount_foldl_aux appName tags 0

theorem countP_key_le_one (k : String) :
    ∀ (tags : List Tag), (tags.map Tag.key).Nodup →
      tags.countP (fun t => t.key = k) ≤ 1 := by
  intro tags
  induction tags with
  | nil => intro _; simp
  | cons t ts ih =>
    intro hnd
    rw [List.map_cons, List.nodup_cons] at hnd
    obtain ⟨hnotin, hnd⟩ := hnd
    rw [List.countP_cons]
    by_cases hk : t.key = k
    · have hzero : ts.countP (fun t => t.key = k) = 0 := by
        rw [List.countP_eq_zero]
        intro u hu
        simp only [decide_eq_true_eq]
        intro huk
        exact hnotin (List.mem_map.mpr ⟨u, hu, by rw [huk, hk]⟩)
      simp [hzero, hk]
    · simp only [hk]
      simpa using ih hnd

theorem checkTagList_true_iff (appName : String) (tags : List Tag) :
    checkTagList appName tags = true ↔
      2 ≤ (tags.filter (ownTagMatch appName)).length := by
  have hcnt : tagMatchCount appName tags
      = (tags.filter (ownTagMatch appName)).length := by
    rw [tagMatchCount_eq_countP, List.countP_eq_length_filter]
  unfold checkTagList
  rw [hcnt]
  by_cases h0 : tags.length = 0
  · have : tags = [] := List.length_eq_zero.mp h0
    subst this
    simp
  · by_cases h2 : 2 ≤ (tags.filter (ownTagMatch appName)).length <;>
      simp [h0, h2]

theorem deleteAll_error_from_del (del : String → Option GoErr) :
    ∀ (ids : List String) (e : GoErr), (deleteAll del ids).1 = some e →
      ∃ i ∈ ids, del i = some e := by
  intro ids
  induction ids with
  | nil => intro e h; simp [deleteAll] at h
  | cons x xs ih =>
    intro e h
    simp only [deleteAll] at h
    cases hx : del x with
    | some e0 =>
      rw [hx] at h
      simp at h
      exact ⟨x, by simp, by rw [hx, h]⟩
    | none =>
      rw [hx] at h
      simp at h
      obtain ⟨i, hi, hdel⟩ := ih e h
      exact ⟨i, by simp [hi], hdel⟩

/-! ## The claims -/

/-- C9: both resource-creation paths (the restore-from-snapshot message
and the create-snapshot message) attach exactly the two identification
tags at creation time: a tag with key `rt_name` whose value carries the
application-name prefix, and a tag with key `rt_time` holding the
creation-time value. -/
theorem creation_paths_attach_ownership_tags
    (appName timeStr : String) (args : RestoreArgs)
    (dbIdentifier displayName : String) :
    (restoreDBInstanceMessage appName timeStr args).tags
        = [⟨rt_name_text, appName⟩, ⟨rt_time_text, timeStr⟩]
    ∧ (createDBSnapshotMessage appName timeStr dbIdentifier displayName).tags
        = [⟨rt_name_text, appName⟩, ⟨rt_time_text, timeStr⟩]
    ∧ (getSpecifyTags appName timeStr).length = 2
    ∧ goHasPrefix appName appName = true := by
  refine ⟨rfl, rfl, rfl, ?_⟩
  simp [goHasPrefix]

/-- C10: `DeleteDBResources` on a value that is neither an instance list
nor a snapshot list returns a nil error and deletes nothing — the
resource-type-not-found condition is only logged; and any error the
caller does receive comes from a gateway delete call, so
`ErrRdsTypesNotFound` is never returned. -/
theorem deleteDBResources_unknown_type_returns_nil
    (delSnap delInst : String → Option GoErr) :
    DeleteDBResources delSnap delInst .other = (none, [])
    ∧ (∀ (r : RdsTypes) (e : GoErr),
        (DeleteDBResources delSnap delInst r).1 = some e →
        ∃ i, delSnap i = some e ∨ delInst i = some e) := by
  refine ⟨rfl, ?_⟩
  intro r e h
  cases r with
  | snapshots l =>
    obtain ⟨i, _, hdel⟩ :=
      deleteAll_error_from_del delSnap (l.map DBSnapshot.identifier) e h
    exact ⟨i, Or.inl hdel⟩
  | instances l =>
    obtain ⟨i, _, hdel⟩ :=
      deleteAll_error_from_del delInst (l.map DBInstance.identifier) e h
    exact ⟨i, Or.inr hdel⟩
  | other => simp [DeleteDBResources] at h

/-- C10 witness: the unknown-kind call reports success, while a snapshot
batch whose delete call fails does surface the gateway error. -/
theorem deleteDBResources_unknown_type_returns_nil_witness :
    DeleteDBResources (fun _ => some (.provider "boom")) (fun _ => none) .other
      = (none, [])
    ∧ ∃ _i : String, some (GoErr.provider "boom") = some (GoErr.provider "boom")
        ∨ (none : Option GoErr) = some (GoErr.provider "boom") := by
  obtain ⟨h1, h2⟩ :=
    deleteDBResources_unknown_type_returns_nil
      (fun _ => some (.provider "boom")) (fun _ => none)
  exact ⟨h1, h2 (.snapshots [⟨"snap-1", "available"⟩]) (.provider "boom") rfl⟩

/-- C7: in every exported CSV data row a nil column value renders as the
literal four-character text `null` (not the empty string) while a present
value renders as its text form; in non-BOM mode the records written are
exactly the header followed by one rendered row per result row. -/
theorem csv_nil_renders_as_null
    (cols : List String) (openErr truncErr : Option GoErr)
    (rows : List (List (Option String))) (fileName dirPath : String) :
    (writeCSVFile (.ok cols) openErr truncErr ⟨rows, fileName, dirPath, false⟩).2
        = cols :: rows.map renderRow
    ∧ (∀ (raw : List (Option String)) (i : Nat),
        raw[i]? = some none → (renderRow raw)[i]? = some "null")
    ∧ (∀ (raw : List (Option String)) (i : Nat) (s : String),
        raw[i]? = some (some s) → (renderRow raw)[i]? = some s)
    ∧ "null".length = 4 ∧ "null" ≠ "" := by
  refine ⟨rfl, ?_, ?_, by decide, by decide⟩
  · intro raw i h
    simp [renderRow, List.getElem?_map, h, renderValue]
  · intro raw i s h
    simp [renderRow, List.getElem?_map, h, renderValue]

/-- C7 witness: the result set with columns id, name and rows
(1, "a"), (2, nil) in non-BOM mode yields records whose second data row
is literally `2,null`. -/
theorem csv_nil_renders_as_null_witness :
    (writeCSVFile (.ok ["id", "name"]) none none
        ⟨[[some "1", some "a"], [some "2", none]], "q-1.csv", "out", false⟩).2
      = [["id", "name"], ["1", "a"], ["2", "null"]]
    ∧ (renderRow [some "2", none])[1]? = some "null"
    ∧ csvLine (renderRow [some "2", none]) = "2,null" := by
  obtain ⟨h1, h2, _, _, _⟩ :=
    csv_nil_renders_as_null ["id", "name"] none none
      [[some "1", some "a"], [some "2", none]] "q-1.csv" "out"
  refine ⟨h1.trans (by decide), h2 [some "2", none] 1 (by decide), by decide⟩

/-- C8 counterexample: with the `os.OpenFile` call failing, `writeCSVFile`
still returns `true` — an open failure is not reported as failure, so the
claim fails on the code. -/
theorem writeCSVFile_ignores_open_error :
    (writeCSVFile (.ok ["id"]) (some (.provider "open failed")) none
        ⟨[], "q.csv", "out", false⟩).1 = true := rfl

/-- C8 amended: `writeCSVFile` reports failure exactly when reading the
result-set column names fails; open, truncate and write errors are
ignored (the signal and the written records do not depend on them), and
already-written rows are never rolled back. -/
theorem writeCSVFile_failure_signal
    (colsRes : Except GoErr (List String)) (openErr truncErr : Option GoErr)
    (args : WriteCSVFileArgs) :
    ((writeCSVFile colsRes openErr truncErr args).1 = false
      ↔ ∃ e, colsRes = .error e)
    ∧ writeCSVFile colsRes openErr truncErr args
        = writeCSVFile colsRes none none args := by
  cases colsRes <;> simp [writeCSVFile]

/-- C2 counterexample: a tag list holding two `rt_time` tags and no
`rt_name` tag reaches the threshold, because each occurrence increments
the match count; so a list presenting only one of the two tag kinds is
not always rejected. -/
theorem checkTagList_duplicate_time_counterexample :
    checkTagList "rds-try" [⟨"rt_time", "a"⟩, ⟨"rt_time", "b"⟩] = true
    ∧ ∀ tag ∈ ([⟨"rt_time", "a"⟩, ⟨"rt_time", "b"⟩] : List Tag),
        tag.key ≠ rt_name_text := by
  exact ⟨rfl, by decide⟩

/-- C2 amended: the ownership check accepts a fetched tag list exactly
when at least two of its tags match, each tag with key `rt_name` whose
value has the application-name prefix counting once and each tag with
key `rt_time` counting once; when no tag key repeats, a list offering
only one of the two tag kinds is rejected; a fetch error is propagated
as `(false, err)`. -/
theorem checkListTags_ownership_spec (appName : String) (tags : List Tag) :
    (checkTagList appName tags = true ↔
        2 ≤ (tags.filter (ownTagMatch appName)).length)
    ∧ ((tags.map Tag.key).Nodup →
        ((∀ tag ∈ tags,
            ¬(tag.key = rt_name_text ∧ goHasPrefix tag.value appName = true))
          ∨ (∀ tag ∈ tags, tag.key ≠ rt_time_text)) →
        checkTagList appName tags = false)
    ∧ (∀ e : GoErr, checkListTagsForResourceMessage appName (.error e) = .error e)
    ∧ checkListTagsForResourceMessage appName (.ok tags)
        = .ok (checkTagList appName tags) := by
  refine ⟨checkTagList_true_iff appName tags, ?_, fun e => rfl, rfl⟩
  intro hnd hone
  have hbound : tags.countP (ownTagMatch appName) ≤ 1 := by
    rcases hone with hname | htime
    · calc tags.countP (ownTagMatch appName)
          ≤ tags.countP (fun t => t.key = rt_time_text) := by
            refine List.countP_mono_left ?_
            intro t ht hmatch
            simp only [ownTagMatch, Bool.or_eq_true, Bool.and_eq_true,
              decide_eq_true_eq] at hmatch
            rcases hmatch with ⟨hk, hp⟩ | hk
            · exact absurd ⟨hk, hp⟩ (hname t ht)
            · simpa using hk
        _ ≤ 1 := countP_key_le_one rt_time_text tags hnd
    · calc tags.countP (ownTagMatch appName)
          ≤ tags.countP (fun t => t.key = rt_name_text) := by
            refine List.countP_mono_left ?_
            intro t ht hmatch
            simp only [ownTagMatch, Bool.or_eq_true, Bool.and_eq_true,
              decide_eq_true_eq] at hmatch
            rcases hmatch with ⟨hk, _⟩ | hk
            · simpa using hk
            · exact absurd hk (htime t ht)
        _ ≤ 1 := countP_key_le_one rt_name_text tags hnd
  rw [List.countP_eq_length_filter] at hbound
  cases hval : checkTagList appName tags with
  | false => rfl
  | true =>
    have := (checkTagList_true_iff appName tags).mp hval
    omega

/-- C2 witness: a lone prefixed name tag is rejected, the full tag pair
is accepted. -/
theorem checkListTags_ownership_spec_witness :
    checkTagList "rds-try" [⟨"rt_name", "rds-try/2015"⟩] = false
    ∧ checkTagList "rds-try" [⟨"rt_name", "rds-try/2015"⟩, ⟨"rt_time", "t"⟩]
        = true := by
  obtain ⟨_, hone, _, _⟩ :=
    checkListTags_ownership_spec "rds-try" [⟨"rt_name", "rds-try/2015"⟩]
  obtain ⟨hiff2, _, _, _⟩ :=
    checkListTags_ownership_spec "rds-try"
      [⟨"rt_name", "rds-try/2015"⟩, ⟨"rt_time", "t"⟩]
  exact ⟨hone (by decide) (Or.inr (by decide)), hiff2.mpr (by decide)⟩

/-- The success path of the discovery filter: when every ownership check
answers, the result is a plain filter of the response list. -/
theorem filterByOwnership_ok {α : Type} (check : α → Except GoErr Bool)
    (p : α → Bool) :
    ∀ (l : List α), (∀ x ∈ l, check x = .ok (p x)) →
      filterByOwnership check l = .ok (l.filter p) := by
  intro l
  induction l with
  | nil => intro _; rfl
  | cons a as ih =>
    intro hp
    have ha := hp a (List.mem_cons_self a as)
    have has := fun x hx => hp x (List.mem_cons_of_mem a hx)
    rw [List.filter_cons]
    simp only [filterByOwnership, ha, ih has]

/-- The failure path of the discovery filter: the first element whose
ownership check errors aborts the whole filter with that error. -/
theorem filterByOwnership_error {α : Type} (check : α → Except GoErr Bool)
    (x : α) (e : GoErr) (hx : check x = .error e) :
    ∀ (l₁ l₂ : List α), (∀ y ∈ l₁, ∃ b, check y = .ok b) →
      filterByOwnership check (l₁ ++ x :: l₂) = .error e := by
  intro l₁
  induction l₁ with
  | nil => intro l₂ _; simp [filterByOwnership, hx]
  | cons y ys ih =>
    intro l₂ h1
    obtain ⟨b, hb⟩ := h1 y (List.mem_cons_self y ys)
    have hys := fun z hz => h1 z (List.mem_cons_of_mem y hz)
    rw [List.cons_append]
    simp only [filterByOwnership, hb, ih l₂ hys]

/-- C3: tag-based discovery over a fetched list returns exactly the
owned elements — a sublist of the input, preserving relative order, of
length equal to the number of owned elements — and the first
ownership-check error aborts the whole operation with that error and no
partial result list. -/
theorem describeByTags_spec {α : Type} (check : α → Except GoErr Bool) :
    (∀ (l : List α) (p : α → Bool),
        (∀ x ∈ l, check x = .ok (p x)) →
        describeByTags (.ok l) check = .ok (l.filter p)
          ∧ (l.filter p).Sublist l
          ∧ (l.filter p).length = l.countP p)
    ∧ (∀ (l₁ l₂ : List α) (x : α) (e : GoErr),
        (∀ y ∈ l₁, ∃ b, check y = .ok b) → check x = .error e →
        describeByTags (.ok (l₁ ++ x :: l₂)) check = .error e) := by
  constructor
  · intro l p hp
    exact ⟨filterByOwnership_ok check p l hp,
      List.filter_sublist l, (List.countP_eq_length_filter _ _).symm⟩
  · intro l₁ l₂ x e h1 hx
    exact filterByOwnership_error check x e hx l₁ l₂ h1

/-- C3 witness: three instances of which the first and third are owned
are filtered to exactly those two in order; an ownership check that
errors on the middle element aborts the discovery with that error. -/
theorem describeByTags_spec_witness :
    describeByTags
        (.ok [(⟨"db-a", "available"⟩ : DBInstance), ⟨"db-b", "failed"⟩,
          ⟨"db-c", "available"⟩])
        (fun i => if i.identifier = "db-b" then .error (.provider "boom")
          else .ok (i.status == "available"))
      = .error (.provider "boom")
    ∧ describeByTags
        (.ok [(⟨"db-a", "available"⟩ : DBInstance), ⟨"db-c", "available"⟩])
        (fun i => if i.identifier = "db-b" then .error (.provider "boom")
          else .ok (i.status == "available"))
      = .ok [⟨"db-a", "available"⟩, ⟨"db-c", "available"⟩] := by
  obtain ⟨hok, herr⟩ :=
    describeByTags_spec (α := DBInstance)
      (fun i => if i.identifier = "db-b" then .error (.provider "boom")
        else .ok (i.status == "available"))
  constructor
  · exact herr [⟨"db-a", "available"⟩] [⟨"db-c", "available"⟩]
      ⟨"db-b", "failed"⟩ (.provider "boom") (by decide) (by decide)
  · have h := hok [⟨"db-a", "available"⟩, ⟨"db-c", "available"⟩]
      (fun i => i.status == "available") (by decide)
    exact h.1.trans (by decide)

/-- The last element of a filtered list is a member after which no
further element satisfies the predicate. -/
theorem filter_getLast?_decomp {α : Type} (p : α → Bool) :
    ∀ (l : List α) (s : α), (l.filter p).getLast? = some s →
      p s = true ∧ ∃ pre post, l = pre ++ s :: post
        ∧ ∀ t ∈ post, p t = false := by
  intro l
  induction l with
  | nil => intro s h; simp at h
  | cons a as ih =>
    intro s h
    rw [List.filter_cons] at h
    by_cases hpa : p a
    · rw [if_pos hpa, List.getLast?_cons] at h
      cases hfa : (as.filter p).getLast? with
      | some s2 =>
        rw [hfa] at h
        simp only [Option.getD_some, Option.some.injEq] at h
        subst h
        obtain ⟨hp2, pre, post, hdec, hpost⟩ := ih s2 hfa
        exact ⟨hp2, a :: pre, post, by rw [hdec, List.cons_append], hpost⟩
      | none =>
        rw [hfa] at h
        simp only [Option.getD_none, Option.some.injEq] at h
        subst h
        have hnil : as.filter p = [] := List.getLast?_eq_none_iff.mp hfa
        refine ⟨hpa, [], as, rfl, ?_⟩
        intro t ht
        have := List.filter_eq_nil_iff.mp hnil t ht
        simpa using this
    · rw [if_neg hpa] at h
      obtain ⟨hp2, pre, post, hdec, hpost⟩ := ih s h
      exact ⟨hp2, a :: pre, post, by rw [hdec, List.cons_append], hpost⟩

/-- C4: latest-snapshot discovery keeps only snapshots whose status is
"available" and returns the last element of that filtered,
provider-ordered list — an available snapshot after which no further
available snapshot occurs in provider order; when no snapshot is
available it fails with `ErrSnapshotNotFound`; a describe error is
propagated. -/
theorem describeLatestDBSnapshot_spec (snaps : List DBSnapshot) :
    (∀ s : DBSnapshot,
        (snaps.filter (fun t => t.status == "available")).getLast? = some s →
        DescribeLatestDBSnapshot (.ok snaps) = .ok s
        ∧ s.status = "available"
        ∧ ∃ pre post, snaps = pre ++ s :: post
            ∧ ∀ t ∈ post, t.status ≠ "available")
    ∧ ((∀ s ∈ snaps, s.status ≠ "available") →
        DescribeLatestDBSnapshot (.ok snaps) = .error .snapshotNotFound)
    ∧ (∀ e : GoErr, DescribeLatestDBSnapshot (.error e) = .error e) := by
  refine ⟨?_, ?_, fun e => rfl⟩
  · intro s hlast
    obtain ⟨hps, pre, post, hdec, hpost⟩ :=
      filter_getLast?_decomp (fun t => t.status == "available") snaps s hlast
    have hlen : 1 ≤ (snaps.filter (fun t => t.status == "available")).length := by
      cases hfe : snaps.filter (fun t => t.status == "available") with
      | nil => rw [hfe] at hlast; simp at hlast
      | cons x xs => simp
    refine ⟨?_, by simpa using hps, pre, post, hdec, ?_⟩
    · have hred : DescribeLatestDBSnapshot (.ok snaps)
          = .ok ((snaps.filter (fun t => t.status == "available")).get
              ⟨(snaps.filter (fun t => t.status == "available")).length - 1,
                by omega⟩) := by
        simp only [DescribeLatestDBSnapshot]
        rw [dif_neg (by omega)]
      rw [hred]
      congr 1
      have h1 : (snaps.filter (fun t => t.status == "available"))[(snaps.filter
          (fun t => t.status == "available")).length - 1]? = some s := by
        rw [← List.getLast?_eq_getElem?]
        exact hlast
      rw [List.getElem?_eq_getElem (by omega)] at h1
      simpa [List.get_eq_getElem] using h1
    · intro t ht
      have := hpost t ht
      simpa using this
  · intro hnone
    have hnil : snaps.filter (fun t => t.status == "available") = [] := by
      rw [List.filter_eq_nil_iff]
      intro a ha
      simpa using hnone a ha
    simp only [DescribeLatestDBSnapshot]
    rw [dif_pos (by rw [hnil]; simp)]

/-- C4 witness: of three snapshots with statuses available, available,
creating, the second is selected — the last available one in provider
order — and a list with no available snapshot yields
`ErrSnapshotNotFound`. -/
theorem describeLatestDBSnapshot_spec_witness :
    DescribeLatestDBSnapshot
        (.ok [(⟨"s1", "available"⟩ : DBSnapshot), ⟨"s2", "available"⟩,
          ⟨"s3", "creating"⟩])
      = .ok ⟨"s2", "available"⟩
    ∧ DescribeLatestDBSnapshot (.ok [(⟨"s4", "creating"⟩ : DBSnapshot)])
      = .error .snapshotNotFound := by
  obtain ⟨hlastcase, _, _⟩ :=
    describeLatestDBSnapshot_spec
      [⟨"s1", "available"⟩, ⟨"s2", "available"⟩, ⟨"s3", "creating"⟩]
  obtain ⟨_, hnonecase, _⟩ :=
    describeLatestDBSnapshot_spec [(⟨"s4", "creating"⟩ : DBSnapshot)]
  exact ⟨(hlastcase ⟨"s2", "available"⟩ (by decide)).1,
    hnonecase (by decide)⟩

/-- The query loop when every query succeeds. -/
theorem execLoop_all_ok (run : Query → Except GoErr Nat) (dur : Query → Nat) :
    ∀ (qs : List Query), (∀ x ∈ qs, run x = .ok (dur x)) →
      execLoop run qs = (qs.map dur, none, qs) := by
  intro qs
  induction qs with
  | nil => intro _; rfl
  | cons q rest ih =>
    intro h
    have hq := h q (List.mem_cons_self q rest)
    have hrest := fun x hx => h x (List.mem_cons_of_mem q hx)
    simp [execLoop, hq, ih hrest]

/-- The query loop stops at the first failing query, keeping the
durations collected before it. -/
theorem execLoop_stops_at_error (run : Query → Except GoErr Nat)
    (dur : Query → Nat) (q : Query) (e : GoErr) (hq : run q = .error e) :
    ∀ (pre post : List Query), (∀ x ∈ pre, run x = .ok (dur x)) →
      execLoop run (pre ++ q :: post) = (pre.map dur, some e, pre ++ [q]) := by
  intro pre
  induction pre with
  | nil => intro post _; simp [execLoop, hq]
  | cons y ys ih =>
    intro post h
    have hy := h y (List.mem_cons_self y ys)
    have hys := fun x hx => h x (List.mem_cons_of_mem y hx)
    rw [List.cons_append]
    simp [execLoop, hy, ih post hys]

/-- C5: with a resolvable driver and a successful connection, if the
i-th query of the batch fails then no query after it is run and exactly
the i-1 durations of the preceding queries are returned with the error;
if all queries succeed, one duration per query is returned in input
order with no error. -/
theorem executeSQL_partial_success
    (user pw engine addr : String) (port : Nat)
    (run : Query → Except GoErr Nat) (dur : Query → Nat)
    (hdrv : (getDbOpenValues user pw engine addr port).1 ≠ "") :
    (∀ (pre post : List Query) (q : Query) (e : GoErr),
        (∀ x ∈ pre, run x = .ok (dur x)) → run q = .error e →
        ExecuteSQL user pw engine addr port none run (pre ++ q :: post)
          = ⟨pre.map dur, some e, true, pre ++ [q]⟩
        ∧ (pre.map dur).length = pre.length)
    ∧ (∀ qs : List Query, (∀ x ∈ qs, run x = .ok (dur x)) →
        ExecuteSQL user pw engine addr port none run qs
          = ⟨qs.map dur, none, true, qs⟩) := by
  constructor
  · intro pre post q e hpre hq
    refine ⟨?_, by simp⟩
    simp only [ExecuteSQL, if_neg hdrv]
    rw [execLoop_stops_at_error run dur q e hq pre post hpre]
  · intro qs h
    simp only [ExecuteSQL, if_neg hdrv]
    rw [execLoop_all_ok run dur qs h]

/-- C5 witness: three queries of which the second fails produce exactly
one duration, the error, and a run list stopping at the second query. -/
theorem executeSQL_partial_success_witness :
    ExecuteSQL "u" "pw" "mysql-5.7" "h" 3306 none
        (fun q => if q.name = "q2" then .error (.provider "bad sql")
          else .ok 5)
        [⟨"q1", "select 1"⟩, ⟨"q2", "select x"⟩, ⟨"q3", "select 3"⟩]
      = ⟨[5], some (.provider "bad sql"), true,
          [⟨"q1", "select 1"⟩, ⟨"q2", "select x"⟩]⟩ := by
  have h := (executeSQL_partial_success "u" "pw" "mysql-5.7" "h" 3306
      (fun q => if q.name = "q2" then .error (.provider "bad sql") else .ok 5)
      (fun _ => 5) (by decide)).1
      [⟨"q1", "select 1"⟩] [⟨"q3", "select 3"⟩] ⟨"q2", "select x"⟩
      (.provider "bad sql") (by decide) (by decide)
  exact h.1

/-- C6 counterexample: the engine name "oracle-mysql" contains "oracle",
yet the derived driver is "mysql", not "oracle": the substring cases are
tried in source order and the mysql case wins, so containing "oracle"
does not by itself determine the driver. -/
theorem getDbOpenValues_order_counterexample :
    goContains (goToLower "oracle-mysql") "oracle" = true
    ∧ (getDbOpenValues "u" "pw" "oracle-mysql" "h" 3306).1 = "mysql" := by
  exact ⟨by decide, by decide⟩

/-- C6 amended: driver derivation is case-insensitive substring matching
tried in the source order mysql, oracle, sqlserver, postgres, the first
match deciding: a mysql match yields driver "mysql" with connection
string `user:pw@tcp(addr:port)/`; an oracle, sqlserver or postgres match
with no earlier match yields that driver name with an empty connection
string; an engine matching none makes the executor return
`ErrDriverNotFound` before any connection attempt. -/
theorem getDbOpenValues_spec (user pw engine addr : String) (port : Nat)
    (openRes : Option GoErr) (run : Query → Except GoErr Nat)
    (queries : List Query) :
    (goContains (goToLower engine) "mysql" = true →
        getDbOpenValues user pw engine addr port
          = ("mysql", user ++ ":" ++ pw ++ "@tcp(" ++ addr ++ ":"
              ++ toString port ++ ")/"))
    ∧ (goContains (goToLower engine) "mysql" = false →
        goContains (goToLower engine) "oracle" = true →
        getDbOpenValues user pw engine addr port = ("oracle", ""))
    ∧ (goContains (goToLower engine) "mysql" = false →
        goContains (goToLower engine) "oracle" = false →
        goContains (goToLower engine) "sqlserver" = true →
        getDbOpenValues user pw engine addr port = ("sqlserver", ""))
    ∧ (goContains (goToLower engine) "mysql" = false →
        goContains (goToLower engine) "oracle" = false →
        goContains (goToLower engine) "sqlserver" = false →
        goContains (goToLower engine) "postgres" = true →
        getDbOpenValues user pw engine addr port = ("postgres", ""))
    ∧ (goContains (goToLower engine) "mysql" = false →
        goContains (goToLower engine) "oracle" = false →
        goContains (goToLower engine) "sqlserver" = false →
        goContains (goToLower engine) "postgres" = false →
        getDbOpenValues user pw engine addr port = ("", "")
        ∧ ExecuteSQL user pw engine addr port openRes run queries
            = ⟨[], some .driverNotFound, false, []⟩) := by
  refine ⟨?_, ?_, ?_, ?_, ?_⟩
  · intro h1
    simp [getDbOpenValues, h1]
  · intro h1 h2
    simp [getDbOpenValues, h1, h2]
  · intro h1 h2 h3
    simp [getDbOpenValues, h1, h2, h3]
  · intro h1 h2 h3 h4
    simp [getDbOpenValues, h1, h2, h3, h4]
  · intro h1 h2 h3 h4
    have hdv : getDbOpenValues user pw engine addr port = ("", "") := by
      simp [getDbOpenValues, h1, h2, h3, h4]
    exact ⟨hdv, by simp [ExecuteSQL, hdv]⟩

/-- C6 witness: "MySQL-5.7" maps to the mysql driver with the tcp data
source name, "oracle-se" maps to the oracle driver with an empty data
source name, and the unmatched engine "db2" makes the executor fail with
`ErrDriverNotFound` without attempting a connection. -/
theorem getDbOpenValues_spec_witness :
    getDbOpenValues "user" "pw" "MySQL-5.7" "host" 3306
      = ("mysql", "user" ++ ":" ++ "pw" ++ "@tcp(" ++ "host" ++ ":"
          ++ toString 3306 ++ ")/")
    ∧ getDbOpenValues "user" "pw" "oracle-se" "host" 1521 = ("oracle", "")
    ∧ ExecuteSQL "user" "pw" "db2" "host" 50000 none (fun _ => .ok 1) []
        = ⟨[], some .driverNotFound, false, []⟩ := by
  obtain ⟨hmy, _, _, _, _⟩ := getDbOpenValues_spec "user" "pw" "MySQL-5.7"
    "host" 3306 none (fun _ => .ok 1) []
  obtain ⟨_, hora, _, _, _⟩ := getDbOpenValues_spec "user" "pw" "oracle-se"
    "host" 1521 none (fun _ => .ok 1) []
  obtain ⟨_, _, _, _, hnone⟩ := getDbOpenValues_spec "user" "pw" "db2"
    "host" 50000 none (fun _ => .ok 1) []
  exact ⟨hmy (by decide), hora (by decide) (by decide),
    (hnone (by decide) (by decide) (by decide) (by decide)).2⟩

/-- Timeout step of the wait loop. -/
theorem waitLoop_zero (describe : Nat → Except GoErr String) (t : Nat) :
    waitLoop describe t 0 = ⟨[false], 0, false⟩ := rfl

/-- Describe-error step of the wait loop: send `false`, stop the ticker,
then panic on the nil dereference. -/
theorem waitLoop_succ_error (describe : Nat → Except GoErr String)
    (t b : Nat) (e : GoErr) (hd : describe t = .error e) :
    waitLoop describe t (b + 1) = ⟨[false], 1, true⟩ := by
  simp [waitLoop, hd]

/-- Available step of the wait loop: send `true` and stop the ticker. -/
theorem waitLoop_succ_avail (describe : Nat → Except GoErr String)
    (t b : Nat) (hd : describe t = .ok "available") :
    waitLoop describe t (b + 1) = ⟨[true], 1, false⟩ := by
  simp [waitLoop, hd]

/-- Non-available step of the wait loop: poll again at the next tick. -/
theorem waitLoop_succ_cont (describe : Nat → Except GoErr String)
    (t b : Nat) (s : String) (hd : describe t = .ok s)
    (hs : s ≠ "available") :
    waitLoop describe t (b + 1) =
      ⟨(waitLoop describe (t + 1) b).delivered,
       (waitLoop describe (t + 1) b).describeCalls + 1,
       (waitLoop describe (t + 1) b).panicked⟩ := by
  simp [waitLoop, hd, hs]

/-- Exactly one boolean completes its send on the channel. -/
theorem waitLoop_single_delivery (describe : Nat → Except GoErr String) :
    ∀ (b t : Nat), ∃ bl, (waitLoop describe t b).delivered = [bl] := by
  intro b
  induction b with
  | zero => intro t; exact ⟨false, rfl⟩
  | succ b ih =>
    intro t
    cases hd : describe t with
    | error e => exact ⟨false, by rw [waitLoop_succ_error describe t b e hd]⟩
    | ok st =>
      by_cases hst : st = "available"
      · subst hst
        exact ⟨true, by rw [waitLoop_succ_avail describe t b hd]⟩
      · obtain ⟨bl, hbl⟩ := ih (t + 1)
        exact ⟨bl, by rw [waitLoop_succ_cont describe t b st hd hst]; exact hbl⟩

/-- The wait loop delivers `true` exactly when some tick in its window
sees status "available" and every earlier tick sees a non-available
status. -/
theorem waitLoop_true_iff (describe : Nat → Except GoErr String) :
    ∀ (b t : Nat),
      (waitLoop describe t b).delivered = [true] ↔
        ∃ k, t ≤ k ∧ k < t + b ∧ describe k = .ok "available" ∧
          ∀ j, t ≤ j → j < k → ∃ s, describe j = .ok s ∧ s ≠ "available" := by
  intro b
  induction b with
  | zero =>
    intro t
    rw [waitLoop_zero]
    constructor
    · intro h; simp at h
    · rintro ⟨k, hk1, hk2, _, _⟩; omega
  | succ b ih =>
    intro t
    cases hd : describe t with
    | error e =>
      rw [waitLoop_succ_error describe t b e hd]
      constructor
      · intro h; simp at h
      · rintro ⟨k, hk1, hk2, hav, hbefore⟩
        rcases Nat.eq_or_lt_of_le hk1 with rfl | hlt
        · rw [hd] at hav; cases hav
        · obtain ⟨s, hs, _⟩ := hbefore t (Nat.le_refl t) hlt
          rw [hd] at hs; cases hs
    | ok st =>
      by_cases hst : st = "available"
      · subst hst
        rw [waitLoop_succ_avail describe t b hd]
        constructor
        · intro _
          exact ⟨t, Nat.le_refl t, by omega, hd,
            fun j h1 h2 => absurd h1 (by omega)⟩
        · intro _; rfl
      · rw [waitLoop_succ_cont describe t b st hd hst]
        rw [ih (t + 1)]
        constructor
        · rintro ⟨k, hk1, hk2, hav, hbefore⟩
          refine ⟨k, by omega, by omega, hav, ?_⟩
          intro j hj1 hj2
          rcases Nat.eq_or_lt_of_le hj1 with rfl | hlt
          · exact ⟨st, hd, hst⟩
          · exact hbefore j hlt hj2
        · rintro ⟨k, hk1, hk2, hav, hbefore⟩
          have hkt : t < k := by
            rcases Nat.eq_or_lt_of_le hk1 with rfl | hlt
            · rw [hd] at hav
              cases hav
              exact absurd rfl hst
            · exact hlt
          exact ⟨k, by omega, by omega, hav,
            fun j hj1 hj2 => hbefore j (by omega) hj2⟩

/-- The wait loop issues no more describe calls than its tick budget. -/
theorem waitLoop_calls_le (describe : Nat → Except GoErr String) :
    ∀ (b t : Nat), (waitLoop describe t b).describeCalls ≤ b := by
  intro b
  induction b with
  | zero => intro t; exact Nat.le_refl 0
  | succ b ih =>
    intro t
    cases hd : describe t with
    | error e =>
      rw [waitLoop_succ_error describe t b e hd]
      exact Nat.succ_le_succ (Nat.zero_le b)
    | ok st =>
      by_cases hst : st = "available"
      · subst hst
        rw [waitLoop_succ_avail describe t b hd]
        exact Nat.succ_le_succ (Nat.zero_le b)
      · rw [waitLoop_succ_cont describe t b st hd hst]
        exact Nat.succ_le_succ (ih (t + 1))

/-- The wait loop stops its describe calls at the first terminal tick:
the call at that tick is the last one issued. -/
theorem waitLoop_calls_at_terminal (describe : Nat → Except GoErr String) :
    ∀ (b t k : Nat), t ≤ k → k < t + b →
      (describe k = .ok "available" ∨ ∃ e, describe k = .error e) →
      (∀ j, t ≤ j → j < k → ∃ s, describe j = .ok s ∧ s ≠ "available") →
      (waitLoop describe t b).describeCalls = k + 1 - t := by
  intro b
  induction b with
  | zero => intro t k h1 h2 _ _; omega
  | succ b ih =>
    intro t k h1 h2 hterm hbefore
    rcases Nat.eq_or_lt_of_le h1 with rfl | hlt
    · rcases hterm with hav | ⟨e, herr⟩
      · rw [waitLoop_succ_avail describe t b hav]
        show (1 : Nat) = t + 1 - t
        omega
      · rw [waitLoop_succ_error describe t b e herr]
        show (1 : Nat) = t + 1 - t
        omega
    · obtain ⟨s, hs, hsne⟩ := hbefore t (Nat.le_refl t) hlt
      rw [waitLoop_succ_cont describe t b s hs hsne]
      show (waitLoop describe (t + 1) b).describeCalls + 1 = k + 1 - t
      have := ih (t + 1) k (by omega) (by omega) hterm
        (fun j hj1 hj2 => hbefore j (by omega) hj2)
      omega

/-- With only non-available statuses in its window, the wait loop times
out: it delivers `false` after a describe call at every tick. -/
theorem waitLoop_timeout (describe : Nat → Except GoErr String) :
    ∀ (b t : Nat),
      (∀ j, t ≤ j → j < t + b → ∃ s, describe j = .ok s ∧ s ≠ "available") →
      waitLoop describe t b = ⟨[false], b, false⟩ := by
  intro b
  induction b with
  | zero => intro t _; rfl
  | succ b ih =>
    intro t h
    obtain ⟨s, hs, hsne⟩ := h t (Nat.le_refl t) (by omega)
    rw [waitLoop_succ_cont describe t b s hs hsne]
    rw [ih (t + 1) (fun j hj1 hj2 => h j (by omega) (by omega))]

/-- C1: each status-wait run delivers exactly one boolean on its
channel: `true` exactly when some tick within the timeout budget sees
status "available" with every earlier tick seeing a non-available
status; `false` when a describe error or the timeout comes first; and
the number of describe calls issued equals the index of the first
terminal tick (the full budget on timeout), so no describe call is
issued after a terminal outcome. -/
theorem waitForStatusAvailable_spec (describe : Nat → Except GoErr String)
    (maxTicks : Nat) :
    (∃ bl, (WaitForStatusAvailable describe maxTicks).delivered = [bl])
    ∧ ((WaitForStatusAvailable describe maxTicks).delivered = [true] ↔
        ∃ k, 1 ≤ k ∧ k ≤ maxTicks ∧ describe k = .ok "available" ∧
          ∀ j, 1 ≤ j → j < k → ∃ s, describe j = .ok s ∧ s ≠ "available")
    ∧ (∀ k e, 1 ≤ k → k ≤ maxTicks → describe k = .error e →
        (∀ j, 1 ≤ j → j < k → ∃ s, describe j = .ok s ∧ s ≠ "available") →
        (WaitForStatusAvailable describe maxTicks).delivered = [false]
          ∧ (WaitForStatusAvailable describe maxTicks).describeCalls = k)
    ∧ ((∀ j, 1 ≤ j → j ≤ maxTicks → ∃ s, describe j = .ok s ∧ s ≠ "available") →
        (WaitForStatusAvailable describe maxTicks).delivered = [false]
          ∧ (WaitForStatusAvailable describe maxTicks).describeCalls = maxTicks)
    ∧ (∀ k, 1 ≤ k → k ≤ maxTicks → describe k = .ok "available" →
        (∀ j, 1 ≤ j → j < k → ∃ s, describe j = .ok s ∧ s ≠ "available") →
        (WaitForStatusAvailable describe maxTicks).describeCalls = k)
    ∧ (WaitForStatusAvailable describe maxTicks).describeCalls ≤ maxTicks := by
  have htrue : (WaitForStatusAvailable describe maxTicks).delivered = [true] ↔
      ∃ k, 1 ≤ k ∧ k ≤ maxTicks ∧ describe k = .ok "available" ∧
        ∀ j, 1 ≤ j → j < k → ∃ s, describe j = .ok s ∧ s ≠ "available" := by
    rw [WaitForStatusAvailable, waitLoop_true_iff describe maxTicks 1]
    constructor
    · rintro ⟨k, hk1, hk2, hav, hbefore⟩
      exact ⟨k, hk1, by omega, hav, hbefore⟩
    · rintro ⟨k, hk1, hk2, hav, hbefore⟩
      exact ⟨k, hk1, by omega, hav, hbefore⟩
  refine ⟨waitLoop_single_delivery describe maxTicks 1, htrue, ?_, ?_, ?_,
    waitLoop_calls_le describe maxTicks 1⟩
  · intro k e hk1 hk2 herr hbefore
    constructor
    · obtain ⟨bl, hbl⟩ := waitLoop_single_delivery describe maxTicks 1
      cases bl with
      | false => exact hbl
      | true =>
        exfalso
        obtain ⟨k2, h21, h22, hav2, hbefore2⟩ := htrue.mp hbl
        rcases Nat.lt_trichotomy k k2 with hlt | rfl | hgt
        · obtain ⟨s, hs, _⟩ := hbefore2 k hk1 hlt
          rw [herr] at hs; cases hs
        · rw [herr] at hav2; cases hav2
        · obtain ⟨s, hs, hsne⟩ := hbefore k2 h21 hgt
          rw [hav2] at hs
          injection hs with h2
          exact hsne h2.symm
    · have := waitLoop_calls_at_terminal describe maxTicks 1 k hk1 (by omega)
        (Or.inr ⟨e, herr⟩) hbefore
      rw [WaitForStatusAvailable]
      omega
  · intro hall
    have := waitLoop_timeout describe maxTicks 1
      (fun j hj1 hj2 => hall j hj1 (by omega))
    rw [WaitForStatusAvailable, this]
    exact ⟨rfl, rfl⟩
  · intro k hk1 hk2 hav hbefore
    have := waitLoop_calls_at_terminal describe maxTicks 1 k hk1 (by omega)
      (Or.inl hav) hbefore
    rw [WaitForStatusAvailable]
    omega

/-- C1 witness: a resource whose status becomes available on the third
poll makes the waiter deliver `true` with exactly three describe calls
issued within the 30-minute budget of 60 ticks. -/
theorem waitForStatusAvailable_spec_witness :
    (WaitForStatusAvailable
        (fun n => .ok (if n = 3 then "available" else "creating"))
        timeoutTicks).delivered = [true]
    ∧ (WaitForStatusAvailable
        (fun n => .ok (if n = 3 then "available" else "creating"))
        timeoutTicks).describeCalls = 3 := by
  obtain ⟨_, htrue, _, _, hcalls, _⟩ :=
    waitForStatusAvailable_spec
      (fun n => .ok (if n = 3 then "available" else "creating")) timeoutTicks
  have hbefore : ∀ j, 1 ≤ j → j < 3 →
      ∃ s, (fun n => (.ok (if n = 3 then "available" else "creating")
          : Except GoErr String)) j = .ok s ∧ s ≠ "available" := by
    intro j hj1 hj2
    refine ⟨"creating", ?_, by decide⟩
    have : j ≠ 3 := by omega
    simp [this]
  exact ⟨htrue.mpr ⟨3, by omega, by decide, by simp, hbefore⟩,
    hcalls 3 (by omega) (by decide) (by simp) hbefore⟩

end RdsTry
